import Mathlib

/-!
Verification of `Triangle_generator.py` against its specification.

The embedding below mirrors the source file:

* `grader` resamples a shapely LineString at multiples of `target_length`
  along its arc length and appends the terminal coordinate.  A shapely
  line is modelled by `SLine`: its arc length, its `interpolate` map from
  arc-length parameters to coordinate tuples, and its last stored
  coordinate.  Coordinate tuples are lists of rationals (2 or 3 entries,
  mirroring optional z values).  Building a `LineString` from a single
  coordinate raises in shapely; the embedding returns `Except.error` there.
* `triMeshgen` filters short lines, flattens multi-part collections,
  grades every line, optionally buffers them (the buffer / union /
  simplify sequence is an external geometry-library collaborator and is
  passed in as the `bufferOp` argument), extracts representative points
  and buffer boundary lines, and assembles the vertex / segment / region
  arrays exactly as the numpy code does, with running index offsets.
* The external triangulation oracle consumes the assembled `TriData`;
  the embedding stops at the fully assembled PSLG, which is what the
  claims are about.
-/

namespace TriangleGen

/-- A coordinate tuple as stored in shapely `coords`: `[x, y]` or `[x, y, z]`. -/
abbrev Coord := List ℚ

/-- A shapely LineString as consumed by `grader`: its arc `length`, its
`interpolate` function (`interp d` is the point at arc-length distance `d`,
clamped into `[0, length]` by shapely), and `endPt = line.coords[-1]`. -/
structure SLine where
  length : ℚ
  interp : ℚ → Coord
  endPt : Coord

/-- Result of `grader`: a LineString, or Python `None` (non-line input). -/
inductive GradeOut where
  | line : List Coord → GradeOut
  | noneOut : GradeOut
deriving DecidableEq

/-- The coordinate list built by `grader` (source line 184-185):
`[line.interpolate(i*target_length).coords[0] for i in range(int(line.length/target_length))]`
followed by `coords.append(line.coords[-1])`. -/
def graderCoords (line : SLine) (target_length : ℚ) : List Coord :=
  ((List.range (Int.toNat ⌊line.length / target_length⌋)).map
    (fun i : ℕ => line.interp ((i : ℚ) * target_length))) ++ [line.endPt]

/-- `grader` (source lines 178-191).  For `type = 'line'` it builds the
resampled coordinate list and constructs a LineString from it; shapely
raises when that list has exactly one coordinate, modelled by
`Except.error`.  For any other `type` it prints a message and returns
`None`, modelled by `GradeOut.noneOut`. -/
def grader (shapein : SLine) (type : String) (target_length : ℚ) :
    Except String GradeOut :=
  if type = "line" then
    if (graderCoords shapein target_length).length = 1 then
      Except.error "LineStrings must have at least 2 coordinate tuples"
    else
      Except.ok (GradeOut.line (graderCoords shapein target_length))
  else
    Except.ok GradeOut.noneOut

/-- `grader` as used inside `triMeshgen` (source line 76): the result is
assigned back into the line list, so a `None` result would fail at the
later `.coords` access; both failure modes surface as errors. -/
def gradeLine (l : SLine) (target_length : ℚ) : Except String (List Coord) :=
  match grader l "line" target_length with
  | Except.ok (GradeOut.line cs) => Except.ok cs
  | Except.ok GradeOut.noneOut =>
      Except.error "AttributeError: NoneType object has no attribute coords"
  | Except.error e => Except.error e

/-- The grading loop of `triMeshgen` over a list of lines (source lines 75-76);
the first raising line aborts the run. -/
def gradeAll (target_length : ℚ) : List SLine → Except String (List (List Coord))
  | [] => Except.ok []
  | l :: ls =>
      match gradeLine l target_length, gradeAll target_length ls with
      | Except.ok c, Except.ok cs => Except.ok (c :: cs)
      | Except.error e, _ => Except.error e
      | _, Except.error e => Except.error e

/-- An element of the `lines` argument: a simple `shapely.LineString` or a
multi-part collection of LineStrings. -/
inductive LineInput where
  | single : SLine → LineInput
  | multi : List SLine → LineInput

/-- Flattening of the `lines` input without any filter (every simple line
contained in the input, in order). -/
def flattenAll : List LineInput → List SLine
  | [] => []
  | LineInput.single l :: rest => l :: flattenAll rest
  | LineInput.multi ls :: rest => ls ++ flattenAll rest

/-- The `lines_new` loop of `triMeshgen` (source lines 50-59): multi-part
collections are flattened and only lines with `length > 1.5*target_length`
are kept. -/
def flattenFilter : List LineInput → ℚ → List SLine
  | [], _ => []
  | LineInput.single l :: rest, t =>
      (if l.length > 1.5 * t then [l] else []) ++ flattenFilter rest t
  | LineInput.multi ls :: rest, t =>
      ls.filter (fun l => decide (l.length > 1.5 * t)) ++ flattenFilter rest t

/-- An element of the `polygons` argument, represented by the boundary
line(s) that `triMeshgen` extracts from it (source lines 63-70 and 77-79). -/
inductive PolyInput where
  | single : SLine → PolyInput
  | multi : List SLine → PolyInput

/-- The `polygons_new` loop (source lines 63-70): flattening without a
length filter; each entry stands for `polygons[i].boundary`. -/
def flattenPolys : List PolyInput → List SLine
  | [] => []
  | PolyInput.single p :: rest => p :: flattenPolys rest
  | PolyInput.multi ps :: rest => ps ++ flattenPolys rest

/-- A shapely geometry `boundary` attribute: either one LineString of
coordinates or a multi-part collection of them. -/
inductive ShpBoundary where
  | line : List Coord → ShpBoundary
  | multi : List (List Coord) → ShpBoundary

/-- A shapely Polygon as it comes out of the buffer / union / simplify
sequence: a point-in-polygon test, the `representative_point()` result
(shapely guarantees it lies within the polygon; stated as a hypothesis
where needed), and the `boundary` rings. -/
structure SPolygon where
  contains : ℚ × ℚ → Bool
  repPoint : ℚ × ℚ
  boundary : ShpBoundary

/-- Result of `cascaded_union(...).simplify(...)`: one Polygon or a
MultiPolygon (a shapely MultiPolygon arising from a union has at least two
components; this is stated as a hypothesis where it matters). -/
inductive BufUnion where
  | poly : SPolygon → BufUnion
  | multi : List SPolygon → BufUnion

/-- Number of connected components of the buffered union. -/
def numComponents : BufUnion → Nat
  | BufUnion.poly _ => 1
  | BufUnion.multi ps => ps.length

/-- One `rep_points` row (source lines 93 and 97):
`np.hstack((np.array(p.representative_point().coords[0]), np.array([0, area])))`. -/
def repRow (p : SPolygon) (area : ℚ) : List ℚ :=
  [p.repPoint.1, p.repPoint.2, 0, area]

/-- The `rep_points` list (source lines 87-97).  In the multi-polygon
branch the source reads `buf_union[1].representative_point()` with the
fixed index `1` inside the loop over `i`, so every row is built from
component `1`; the embedding reproduces that index.  `ps[1]?` is `none`
only for a multi-part union of fewer than two components, which a shapely
union never produces; the `[]` row stands for the IndexError raised there. -/
def repPointsOf : BufUnion → ℚ → List (List ℚ)
  | BufUnion.poly p, area => [repRow p area]
  | BufUnion.multi ps, area =>
      ps.map (fun _ =>
        match ps[1]? with
        | some p1 => repRow p1 area
        | none => [])

/-- Boundary rings of one polygon as appended to `buf_lines`
(source lines 104-109 and 112-116). -/
def polyBoundaryLines (p : SPolygon) : List (List Coord) :=
  match p.boundary with
  | ShpBoundary.line cs => [cs]
  | ShpBoundary.multi css => css

/-- The `buf_lines` list (source lines 101-116): every boundary ring of
every component of the buffered union. -/
def bufLinesOf : BufUnion → List (List Coord)
  | BufUnion.poly p => polyBoundaryLines p
  | BufUnion.multi ps => (ps.map polyBoundaryLines).flatten

/-- The boundary vertex block (source lines 123-126):
`bounding_poly.boundary.coords[0:-1]`, taking ring `[0]` when the boundary
is multi-part.  Note: no `[:, 0:2]` slice is applied here. -/
def boundaryCoords : ShpBoundary → List Coord
  | ShpBoundary.line cs => cs.dropLast
  | ShpBoundary.multi css => (css.headD []).dropLast

/-- The boundary segment rows (source lines 127-128): rows `(i, i+1)` for
`i < n` with the last row patched to `(n-1, 0)`. -/
def boundarySegs (n : Nat) : List (Nat × Nat) :=
  (List.range n).map (fun i => (i, if i + 1 = n then 0 else i + 1))

/-- The open segment chain appended for one line of `m` coordinates at
vertex offset `off` (source lines 138-140 and 149-151): rows
`(0,1) … (m-1,m)` with the last row deleted, then shifted by `off`. -/
def openChain (off m : Nat) : List (Nat × Nat) :=
  (List.range (m - 1)).map (fun k => (off + k, off + k + 1))

/-- Concatenated open chains for a list of line lengths, with the vertex
offset advancing by each line length in turn. -/
def chainsFrom (off : Nat) : List Nat → List (Nat × Nat)
  | [] => []
  | m :: ms => openChain off m ++ chainsFrom (off + m) ms

/-- `a[:, 0:2]` applied to every line and the lines concatenated: the
vertex block contributed by a list of lines. -/
def take2All : List (List Coord) → List Coord
  | [] => []
  | c :: cs => c.map (fun p => p.take 2) ++ take2All cs

/-- The `tri_data` dictionary: the assembled PSLG. -/
structure TriData where
  vertices : List Coord
  segments : List (Nat × Nat)
  regions : Option (List ℚ)

/-- `tri_data` after the boundary block (source lines 120-130). -/
def initTD (bounding_poly : ShpBoundary) : TriData :=
  { vertices := boundaryCoords bounding_poly
    segments := boundarySegs (boundaryCoords bounding_poly).length
    regions := none }

/-- The input-lines loop (source lines 133-142): each line contributes its
`[:, 0:2]` vertices; its open segment chain (offset by the current vertex
count, which is taken before the vertices are appended) is added only when
`buffer_dist == 0`. -/
def addLinesVerts (buffer_dist : ℚ) : TriData → List (List Coord) → TriData
  | td, [] => td
  | td, c :: cs =>
      addLinesVerts buffer_dist
        { vertices := td.vertices ++ c.map (fun p => p.take 2)
          segments :=
            if buffer_dist = 0 then
              td.segments ++ openChain td.vertices.length (c.map (fun p => p.take 2)).length
            else td.segments
          regions := td.regions } cs

/-- The buffer-lines loop (source lines 144-153): vertices and open
segment chains are always appended. -/
def addBufLines : TriData → List (List Coord) → TriData
  | td, [] => td
  | td, c :: cs =>
      addBufLines
        { vertices := td.vertices ++ c.map (fun p => p.take 2)
          segments :=
            td.segments ++ openChain td.vertices.length (c.map (fun p => p.take 2)).length
          regions := td.regions } cs

/-- Assembly after grading (source lines 82-162): representative points and
buffer boundary lines are computed only when `buffer_dist > 0`;
`area_in_buffer = 5 * target_length**2`; the region entry attached to
`tri_data` is `np.array(rep_points)[0]`, i.e. only the first row, and an
empty `rep_points` would raise an IndexError there. -/
def triAssemble (bounding_poly : ShpBoundary) (allLines : List (List Coord))
    (buf_union : BufUnion) (target_length buffer_dist : ℚ) :
    Except String TriData :=
  if 0 < buffer_dist then
    match repPointsOf buf_union (5 * target_length ^ 2) with
    | [] => Except.error "IndexError: index 0 is out of bounds"
    | r :: _ =>
        Except.ok
          { addBufLines (addLinesVerts buffer_dist (initTD bounding_poly) allLines)
              (bufLinesOf buf_union) with
            regions := some r }
  else
    Except.ok (addLinesVerts buffer_dist (initTD bounding_poly) allLines)

/-- `triMeshgen` up to the assembled PSLG (source lines 26-162).  The
buffer / union / simplify sequence over the graded lines is an external
geometry-library collaborator; it is passed in as `bufferOp`, applied to
the graded lines, `buffer_dist` and the simplification tolerance
`target_length / 2`.  `points` is accepted and never used, as in the
source; `element_area` only enters the external oracle options string.
The external `tri.triangulate` call consumes the returned `TriData`. -/
def triMeshgen (bounding_poly : ShpBoundary) (lines : List LineInput)
    (points : List Coord) (polygons : List PolyInput)
    (target_length element_area buffer_dist : ℚ)
    (bufferOp : List (List Coord) → ℚ → ℚ → BufUnion) :
    Except String TriData :=
  match gradeAll target_length (flattenFilter lines target_length),
        gradeAll target_length (flattenPolys polygons) with
  | Except.ok graded, Except.ok gradedP =>
      triAssemble bounding_poly (graded ++ gradedP)
        (bufferOp (graded ++ gradedP) buffer_dist (target_length / 2))
        target_length buffer_dist
  | Except.error e, _ => Except.error e
  | _, Except.error e => Except.error e

/-- Index-validity invariant for the assembled PSLG: every segment points
at existing vertices and its two indices differ. -/
def SegsOK (td : TriData) : Prop :=
  ∀ s ∈ td.segments, s.1 < td.vertices.length ∧ s.2 < td.vertices.length ∧ s.1 ≠ s.2

/-- No segment of `td` touches a vertex index in the band `[lo, hi)`:
every segment lies entirely below `lo` or entirely at or above `hi`. -/
def SegsAvoid (td : TriData) (lo hi : Nat) : Prop :=
  ∀ s ∈ td.segments, (s.1 < lo ∧ s.2 < lo) ∨ (hi ≤ s.1 ∧ hi ≤ s.2)

/-- The straight line of length `L` from `(0,0)` to `(L,0)`:
`interpolate` clamps its parameter into `[0, L]`. -/
def xLine (L : ℚ) : SLine :=
  { length := L
    interp := fun d => [min (max d 0) L, 0]
    endPt := [L, 0] }

/-- A straight line of length 12 carrying a z coordinate on every point. -/
def zLine : SLine :=
  { length := 12
    interp := fun d => [min (max d 0) 12, 0, 7]
    endPt := [12, 0, 7] }

/-- The closed LineString `[(0,0),(1,0),(0,0)]`: it runs out along the
x axis and back, so its arc length is 2.  `interpolate d` (with `d`
clamped into `[0,2]` by shapely) is `(d, 0)` on the way out (`d ≤ 1`)
and `(2-d, 0)` on the way back; `coords[-1] = (0,0)`.  Closed rings are
ordinary `grader` inputs: `triMeshgen` grades polygon boundary rings as
lines (source lines 77-79). -/
def loopLine : SLine :=
  { length := 2
    interp := fun d =>
      if min (max d 0) 2 ≤ 1 then [min (max d 0) 2, 0]
      else [2 - min (max d 0) 2, 0]
    endPt := [0, 0] }

/-- Squared Euclidean distance of two 2-D coordinate tuples. -/
def distSq (p q : Coord) : ℚ :=
  (p.headD 0 - q.headD 0) ^ 2 + (p.getD 1 0 - q.getD 1 0) ^ 2

/-! ### Concrete test data used by witnesses and counterexamples -/

/-- Vertices of a 20 x 20 square boundary (closing point dropped). -/
def sqVerts : List Coord := [[0, 0], [20, 0], [20, 20], [0, 20]]

/-- The same square with a z coordinate on every point. -/
def sqVerts3D : List Coord := [[0, 0, 7], [20, 0, 7], [20, 20, 7], [0, 20, 7]]

/-- The square boundary ring as shapely stores it (closed). -/
def sqBoundary : ShpBoundary := ShpBoundary.line (sqVerts ++ [[0, 0]])

/-- The square boundary ring with z coordinates (closed). -/
def sqBoundary3D : ShpBoundary := ShpBoundary.line (sqVerts3D ++ [[0, 0, 7]])

/-- Graded coordinates of `xLine 12` at spacing 5. -/
def lineVerts : List Coord := [[0, 0], [5, 0], [12, 0]]

/-- Graded coordinates of `zLine` at spacing 5 (z retained by `interpolate`). -/
def zLineVerts : List Coord := [[0, 0, 7], [5, 0, 7], [12, 0, 7]]

/-- A one-line `lines` argument. -/
def cL1 : List LineInput := [LineInput.single (xLine 12)]

/-- A one-line `lines` argument whose line carries z coordinates. -/
def cLz : List LineInput := [LineInput.single zLine]

/-- A two-line `lines` argument: one long line and one short line. -/
def cL6 : List LineInput := [LineInput.single (xLine 12), LineInput.single (xLine 5)]

/-- First connected component of a two-component buffered union:
the square `[0,2] x [0,2]` with representative point `(1,1)`. -/
def compA : SPolygon :=
  { contains := fun p => decide (0 ≤ p.1 ∧ p.1 ≤ 2 ∧ 0 ≤ p.2 ∧ p.2 ≤ 2)
    repPoint := (1, 1)
    boundary := ShpBoundary.line [[0, 0], [2, 0], [2, 2], [0, 2], [0, 0]] }

/-- Second connected component: the square `[10,12] x [0,2]` with
representative point `(11,1)`, disjoint from `compA`. -/
def compB : SPolygon :=
  { contains := fun p => decide (10 ≤ p.1 ∧ p.1 ≤ 12 ∧ 0 ≤ p.2 ∧ p.2 ≤ 2)
    repPoint := (11, 1)
    boundary := ShpBoundary.line [[10, 0], [12, 0], [12, 2], [10, 2], [10, 0]] }

/-- A buffered union with two connected components. -/
def twoCompUnion : BufUnion := BufUnion.multi [compA, compB]

/-- A buffer / union / simplify oracle returning `twoCompUnion`. -/
def twoCompOp : List (List Coord) → ℚ → ℚ → BufUnion := fun _ _ _ => twoCompUnion

/-- Boundary ring of `compA`. -/
def ringA : List Coord := [[0, 0], [2, 0], [2, 2], [0, 2], [0, 0]]

/-- Boundary ring of `compB`. -/
def ringB : List Coord := [[10, 0], [12, 0], [12, 2], [10, 2], [10, 0]]

/-- Assembled PSLG for the square boundary plus `xLine 12`, no buffering. -/
def tdA : TriData :=
  { vertices := sqVerts ++ lineVerts
    segments := [(0, 1), (1, 2), (2, 3), (3, 0), (4, 5), (5, 6)]
    regions := none }

/-- Assembled PSLG for the square boundary plus `xLine 12` with
`buffer_dist = 1` and the two-component buffered union. -/
def tdB : TriData :=
  { vertices := sqVerts ++ lineVerts ++ ringA ++ ringB
    segments := [(0, 1), (1, 2), (2, 3), (3, 0),
                 (7, 8), (8, 9), (9, 10), (10, 11),
                 (12, 13), (13, 14), (14, 15), (15, 16)]
    regions := some [11, 1, 0, 125] }

/-- Assembled PSLG for the z-carrying square boundary alone, no buffering. -/
def tdC : TriData :=
  { vertices := sqVerts3D
    segments := [(0, 1), (1, 2), (2, 3), (3, 0)]
    regions := none }

/-! ### Structural lemmas about the assembled arrays -/

theorem openChain_mem {off m : Nat} {s : Nat × Nat} (h : s ∈ openChain off m) :
    off ≤ s.1 ∧ s.2 = s.1 + 1 ∧ s.2 < off + m := by
  rcases List.mem_map.mp h with ⟨k, hk, rfl⟩
  have hk' := List.mem_range.mp hk
  refine ⟨Nat.le_add_right _ _, rfl, ?_⟩
  omega

theorem boundarySegs_mem {n : Nat} {s : Nat × Nat} (h : s ∈ boundarySegs n) :
    s.1 < n ∧ s.2 < n ∧ (n ≠ 1 → s.1 ≠ s.2) := by
  rcases List.mem_map.mp h with ⟨i, hi, rfl⟩
  have hi' := List.mem_range.mp hi
  by_cases hlast : i + 1 = n <;> simp only [hlast, if_pos, if_neg] <;> simp <;> omega

theorem chainsFrom_mem {ms : List Nat} {off : Nat} {s : Nat × Nat}
    (h : s ∈ chainsFrom off ms) :
    off ≤ s.1 ∧ s.2 = s.1 + 1 ∧ s.2 < off + ms.sum := by
  induction ms generalizing off with
  | nil => simp [chainsFrom] at h
  | cons m ms ih =>
      rcases List.mem_append.mp h with h1 | h2
      · have := openChain_mem h1
        refine ⟨this.1, this.2.1, ?_⟩
        have := this.2.2
        simp [List.sum_cons]
        omega
      · have := ih h2
        refine ⟨le_trans (Nat.le_add_right _ _) this.1, this.2.1, ?_⟩
        have := this.2.2
        simp [List.sum_cons]
        omega

theorem take2All_length (cs : List (List Coord)) :
    (take2All cs).length = (cs.map List.length).sum := by
  induction cs with
  | nil => simp [take2All]
  | cons c cs ih => simp [take2All, ih]

theorem take2All_append (cs ds : List (List Coord)) :
    take2All (cs ++ ds) = take2All cs ++ take2All ds := by
  induction cs with
  | nil => simp [take2All]
  | cons c cs ih => simp [take2All, ih]

theorem take2All_mem {cs : List (List Coord)} {p : Coord} (h : p ∈ take2All cs) :
    p.length ≤ 2 := by
  induction cs with
  | nil => simp [take2All] at h
  | cons c cs ih =>
      rcases List.mem_append.mp h with h1 | h2
      · rcases List.mem_map.mp h1 with ⟨q, _, rfl⟩
        simp [List.length_take]
      · exact ih h2

theorem addLinesVerts_vertices (bd : ℚ) (td : TriData) (cs : List (List Coord)) :
    (addLinesVerts bd td cs).vertices = td.vertices ++ take2All cs := by
  induction cs generalizing td with
  | nil => simp [addLinesVerts, take2All]
  | cons c cs ih => simp [addLinesVerts, ih, take2All, List.append_assoc]

theorem addLinesVerts_regions (bd : ℚ) (td : TriData) (cs : List (List Coord)) :
    (addLinesVerts bd td cs).regions = td.regions := by
  induction cs generalizing td with
  | nil => simp [addLinesVerts]
  | cons c cs ih => simp [addLinesVerts, ih]

theorem addLinesVerts_segments_ne (bd : ℚ) (hbd : bd ≠ 0) (td : TriData)
    (cs : List (List Coord)) :
    (addLinesVerts bd td cs).segments = td.segments := by
  induction cs generalizing td with
  | nil => simp [addLinesVerts]
  | cons c cs ih => simp [addLinesVerts, ih, if_neg hbd]

theorem addLinesVerts_segments_zero (td : TriData) (cs : List (List Coord)) :
    (addLinesVerts 0 td cs).segments
      = td.segments ++ chainsFrom td.vertices.length (cs.map List.length) := by
  induction cs generalizing td with
  | nil => simp [addLinesVerts, chainsFrom]
  | cons c cs ih =>
      simp only [addLinesVerts, if_pos rfl, ih, chainsFrom, List.map_cons]
      simp [List.append_assoc, List.length_map]

theorem addBufLines_vertices (td : TriData) (cs : List (List Coord)) :
    (addBufLines td cs).vertices = td.vertices ++ take2All cs := by
  induction cs generalizing td with
  | nil => simp [addBufLines, take2All]
  | cons c cs ih => simp [addBufLines, ih, take2All, List.append_assoc]

theorem addBufLines_regions (td : TriData) (cs : List (List Coord)) :
    (addBufLines td cs).regions = td.regions := by
  induction cs generalizing td with
  | nil => simp [addBufLines]
  | cons c cs ih => simp [addBufLines, ih]

theorem addBufLines_segments (td : TriData) (cs : List (List Coord)) :
    (addBufLines td cs).segments
      = td.segments ++ chainsFrom td.vertices.length (cs.map List.length) := by
  induction cs generalizing td with
  | nil => simp [addBufLines, chainsFrom]
  | cons c cs ih =>
      simp only [addBufLines, ih, chainsFrom, List.map_cons]
      simp [List.append_assoc, List.length_map]

theorem triAssemble_nonpos (bounding_poly : ShpBoundary) (allLines : List (List Coord))
    (buf_union : BufUnion) (t bd : ℚ) (hbd : ¬ 0 < bd) :
    triAssemble bounding_poly allLines buf_union t bd
      = Except.ok (addLinesVerts bd (initTD bounding_poly) allLines) := by
  simp [triAssemble, if_neg hbd]

theorem triAssemble_pos (bounding_poly : ShpBoundary) (allLines : List (List Coord))
    (buf_union : BufUnion) (t bd : ℚ) (td : TriData) (hbd : 0 < bd)
    (h : triAssemble bounding_poly allLines buf_union t bd = Except.ok td) :
    td.vertices
      = boundaryCoords bounding_poly ++ take2All allLines ++ take2All (bufLinesOf buf_union)
    ∧ td.segments
      = boundarySegs (boundaryCoords bounding_poly).length
        ++ chainsFrom ((boundaryCoords bounding_poly).length + (take2All allLines).length)
            ((bufLinesOf buf_union).map List.length)
    ∧ td.regions = (repPointsOf buf_union (5 * t ^ 2)).head? := by
  rw [triAssemble, if_pos hbd] at h
  rcases hrep : repPointsOf buf_union (5 * t ^ 2) with _ | ⟨r, rest⟩
  · rw [hrep] at h
    exact absurd h (by simp)
  · rw [hrep] at h
    have htd : td
        = { addBufLines (addLinesVerts bd (initTD bounding_poly) allLines)
              (bufLinesOf buf_union) with
            regions := some r } := by
      cases h
      rfl
    subst htd
    have hbd' : bd ≠ 0 := ne_of_gt hbd
    refine ⟨?_, ?_, ?_⟩
    · simp [addBufLines_vertices, addLinesVerts_vertices, initTD, List.append_assoc]
    · simp [addBufLines_segments, addLinesVerts_segments_ne bd hbd',
        addLinesVerts_vertices, initTD, List.length_append]
    · simp [hrep]

theorem segsOK_of_shape (n off : Nat) (ms : List Nat) (td : TriData)
    (hseg : td.segments = boundarySegs n ++ chainsFrom off ms)
    (hn : n ≠ 1) (hnlen : n ≤ td.vertices.length)
    (hlen : off + ms.sum ≤ td.vertices.length) : SegsOK td := by
  intro s hs
  rw [hseg] at hs
  rcases List.mem_append.mp hs with h1 | h2
  · have hb := boundarySegs_mem h1
    exact ⟨lt_of_lt_of_le hb.1 hnlen, lt_of_lt_of_le hb.2.1 hnlen, hb.2.2 hn⟩
  · have hc := chainsFrom_mem h2
    have h2lt : s.2 < td.vertices.length := lt_of_lt_of_le hc.2.2 hlen
    refine ⟨?_, h2lt, ?_⟩
    · omega
    · omega

/-! ### Arithmetic facts about the grading sample count -/

theorem floor_toNat_facts (L s : ℚ) (hs : 0 < s) (hLs : s ≤ L) :
    1 ≤ (⌊L / s⌋).toNat ∧ (((⌊L / s⌋).toNat : ℚ)) * s ≤ L
      ∧ L < (((⌊L / s⌋).toNat : ℚ) + 1) * s := by
  have h1 : (1 : ℚ) ≤ L / s := (one_le_div hs).mpr hLs
  have hfl1 : (1 : ℤ) ≤ ⌊L / s⌋ := Int.le_floor.mpr (by exact_mod_cast h1)
  have hcast : (((⌊L / s⌋).toNat : ℤ)) = ⌊L / s⌋ := Int.toNat_of_nonneg (by omega)
  have hcastQ : (((⌊L / s⌋).toNat : ℚ)) = ((⌊L / s⌋ : ℤ) : ℚ) := by exact_mod_cast hcast
  refine ⟨?_, ?_, ?_⟩
  · have := Int.toNat_le_toNat hfl1
    simpa using this
  · have hle : ((⌊L / s⌋ : ℤ) : ℚ) ≤ L / s := Int.floor_le _
    rw [hcastQ]
    exact (le_div_iff₀ hs).mp hle
  · have hlt : L / s < ((⌊L / s⌋ : ℤ) : ℚ) + 1 := Int.lt_floor_add_one _
    rw [hcastQ]
    exact (div_lt_iff₀ hs).mp hlt

theorem graderCoords_xLine (L s : ℚ) (hs : 0 < s) (hLs : s ≤ L) :
    graderCoords (xLine L) s
      = (List.range ((⌊L / s⌋).toNat)).map (fun i : ℕ => [(i : ℚ) * s, 0]) ++ [[L, 0]] := by
  obtain ⟨hn1, hnle, _⟩ := floor_toNat_facts L s hs hLs
  have hlen : (xLine L).length = L := rfl
  have hend : (xLine L).endPt = [L, 0] := rfl
  have hint : ∀ d : ℚ, (xLine L).interp d = [min (max d 0) L, 0] := fun d => rfl
  rw [graderCoords, hlen, hend]
  congr 1
  refine List.map_congr_left ?_
  intro i hi
  have hi' : i < (⌊L / s⌋).toNat := List.mem_range.mp hi
  have hiq : (i : ℚ) * s ≤ L := by
    have hle : (i : ℚ) ≤ (((⌊L / s⌋).toNat : ℚ)) := by exact_mod_cast le_of_lt hi'
    calc (i : ℚ) * s ≤ (((⌊L / s⌋).toNat : ℚ)) * s :=
          mul_le_mul_of_nonneg_right hle (le_of_lt hs)
    _ ≤ L := hnle
  have h0 : (0 : ℚ) ≤ (i : ℚ) * s := mul_nonneg (by positivity) (le_of_lt hs)
  rw [hint, max_eq_left h0, min_eq_left hiq]

theorem grader_xLine (L s : ℚ) (hs : 0 < s) (hLs : s ≤ L) :
    grader (xLine L) "line" s
      = Except.ok (GradeOut.line
          ((List.range ((⌊L / s⌋).toNat)).map (fun i : ℕ => [(i : ℚ) * s, 0]) ++ [[L, 0]])) := by
  obtain ⟨hn1, _, _⟩ := floor_toNat_facts L s hs hLs
  rw [grader, if_pos rfl, graderCoords_xLine L s hs hLs, if_neg ?_]
  have hlen : ((List.range ((⌊L / s⌋).toNat)).map
      (fun i : ℕ => [(i : ℚ) * s, 0]) ++ [[L, 0]]).length = (⌊L / s⌋).toNat + 1 := by
    simp
  rw [hlen]
  omega

theorem floor_toNat_zero (L s : ℚ) (hs : 0 < s) (h0 : 0 ≤ L) (hL : L < s) :
    (⌊L / s⌋).toNat = 0 := by
  have : ⌊L / s⌋ = 0 := by
    rw [Int.floor_eq_zero_iff]
    constructor
    · exact div_nonneg h0 (le_of_lt hs)
    · exact (div_lt_one hs).mpr hL
  simp [this]

theorem floor_2_2 : (⌊(2 : ℚ) / 2⌋).toNat = 1 := by
  have h : ⌊(2 : ℚ) / 2⌋ = 1 := by
    rw [Int.floor_eq_iff]
    norm_num
  rw [h]
  rfl

theorem floor_12_5 : (⌊(12 : ℚ) / 5⌋).toNat = 2 := by
  have h : ⌊(12 : ℚ) / 5⌋ = 2 := by
    rw [Int.floor_eq_iff]
    norm_num
  rw [h]
  rfl

/-- Concrete evaluation: grading the straight line of length 12 at spacing 5. -/
theorem grader_xLine12 :
    grader (xLine 12) "line" 5 = Except.ok (GradeOut.line [[0, 0], [5, 0], [12, 0]]) := by
  have h := grader_xLine 12 5 (by norm_num) (by norm_num)
  rw [floor_12_5] at h
  rw [h]
  norm_num [List.range_succ]

/-- Unfolding of `triAssemble` in the buffering branch, given the head of
the representative-point list. -/
theorem triAssemble_pos_eq (bounding_poly : ShpBoundary) (allLines : List (List Coord))
    (buf_union : BufUnion) (t bd : ℚ) (hbd : 0 < bd) (r : List ℚ) (rest : List (List ℚ))
    (hrep : repPointsOf buf_union (5 * t ^ 2) = r :: rest) :
    triAssemble bounding_poly allLines buf_union t bd
      = Except.ok
          { addBufLines (addLinesVerts bd (initTD bounding_poly) allLines)
              (bufLinesOf buf_union) with
            regions := some r } := by
  unfold triAssemble
  rw [if_pos hbd, hrep]

/-- Concrete evaluation: the boundary block of the square. -/
theorem bc_sq : boundaryCoords sqBoundary = sqVerts := rfl

/-- Concrete evaluation: the boundary block of the z-carrying square. -/
theorem bc_sq3 : boundaryCoords sqBoundary3D = sqVerts3D := rfl

/-- Concrete evaluation: boundary segments of a 4-vertex ring. -/
theorem bsegs4 : boundarySegs 4 = [(0, 1), (1, 2), (2, 3), (3, 0)] := rfl

/-- Concrete evaluation: filtering keeps the length-12 line at spacing 5. -/
theorem ff12 : flattenFilter cL1 5 = [xLine 12] := by
  show (if (xLine 12).length > 1.5 * 5 then [xLine 12] else []) ++ flattenFilter [] 5
      = [xLine 12]
  rw [if_pos (by norm_num [xLine] : (xLine 12).length > 1.5 * 5)]
  rfl

/-- Concrete evaluation: filtering keeps the z-carrying line at spacing 5. -/
theorem ffz : flattenFilter cLz 5 = [zLine] := by
  show (if zLine.length > 1.5 * 5 then [zLine] else []) ++ flattenFilter [] 5 = [zLine]
  rw [if_pos (by norm_num [zLine] : zLine.length > 1.5 * 5)]
  rfl

/-- Concrete evaluation: grading the z-carrying line at spacing 5; the
interpolated points keep their z values. -/
theorem grader_zLine :
    grader zLine "line" 5 = Except.ok (GradeOut.line zLineVerts) := by
  have hc : graderCoords zLine 5 = zLineVerts := by
    rw [graderCoords]
    show (List.range (⌊(12 : ℚ) / 5⌋).toNat).map _ ++ [[12, 0, 7]] = zLineVerts
    rw [floor_12_5]
    norm_num [List.range_succ, zLine, zLineVerts, min_def, max_def]
  rw [grader, if_pos rfl, hc]
  norm_num [zLineVerts]

/-- Concrete evaluation: the full grading stage on `cL1`. -/
theorem hg5 : gradeAll 5 (flattenFilter cL1 5) = Except.ok [lineVerts] := by
  rw [ff12]
  simp [gradeAll, gradeLine, grader_xLine12, lineVerts]

/-- Concrete evaluation: the full grading stage on `cLz`. -/
theorem hgz : gradeAll 5 (flattenFilter cLz 5) = Except.ok [zLineVerts] := by
  rw [ffz]
  simp [gradeAll, gradeLine, grader_zLine]

/-- Concrete evaluation: the polygon grading stage on an empty list. -/
theorem hgP : gradeAll 5 (flattenPolys []) = Except.ok [] := rfl

/-- Concrete run: square boundary, `xLine 12`, no buffering. -/
theorem runA : triMeshgen sqBoundary cL1 [] [] 5 5000 0 twoCompOp = Except.ok tdA := by
  rw [triMeshgen.eq_def, hg5, hgP]
  show triAssemble sqBoundary ([lineVerts] ++ []) (twoCompOp ([lineVerts] ++ []) 0 (5 / 2)) 5 0
      = Except.ok tdA
  rw [triAssemble_nonpos _ _ _ _ _ (by norm_num)]
  congr 1

/-- Concrete run: square boundary, `xLine 12`, `buffer_dist = 1`, with
the two-component buffered union. -/
theorem runB : triMeshgen sqBoundary cL1 [] [] 5 5000 1 twoCompOp = Except.ok tdB := by
  rw [triMeshgen.eq_def, hg5, hgP]
  show triAssemble sqBoundary ([lineVerts] ++ []) (twoCompOp ([lineVerts] ++ []) 1 (5 / 2)) 5 1
      = Except.ok tdB
  rw [triAssemble_pos_eq _ _ _ _ _ (by norm_num) [11, 1, 0, 5 * 5 ^ 2] [[11, 1, 0, 5 * 5 ^ 2]]
    (by norm_num [twoCompOp, twoCompUnion, repPointsOf, repRow, compB])]
  have hbl : bufLinesOf (twoCompOp ([lineVerts] ++ []) 1 (5 / 2)) = [ringA, ringB] := rfl
  rw [hbl]
  congr 1
  norm_num [addBufLines, addLinesVerts, initTD, bc_sq, bsegs4, openChain, tdB, sqVerts,
    lineVerts, ringA, ringB, List.range_succ]

/-- Concrete run: z-carrying square boundary alone, no buffering. -/
theorem runC : triMeshgen sqBoundary3D [] [] [] 5 5000 0 twoCompOp = Except.ok tdC := by
  rw [triMeshgen.eq_def]
  show triAssemble sqBoundary3D ([] ++ []) (twoCompOp ([] ++ []) 0 (5 / 2)) 5 0
      = Except.ok tdC
  rw [triAssemble_nonpos _ _ _ _ _ (by norm_num)]
  congr 1

/-- Concrete run: square boundary, z-carrying line, no buffering; the
line vertices lose their z coordinates, so the result equals `tdA`. -/
theorem runE : triMeshgen sqBoundary cLz [] [] 5 5000 0 twoCompOp = Except.ok tdA := by
  rw [triMeshgen.eq_def, hgz, hgP]
  show triAssemble sqBoundary ([zLineVerts] ++ []) (twoCompOp ([zLineVerts] ++ []) 0 (5 / 2)) 5 0
      = Except.ok tdA
  rw [triAssemble_nonpos _ _ _ _ _ (by norm_num)]
  congr 1

/-! ### Claims about `grader` (C1, C7, C8, C9) -/

/-- Claim C1, corrected.  For a straight line of length `L ≥ s` graded at
spacing `s`, `grader` returns the samples at arc lengths
`0, s, …, (⌊L/s⌋ - 1)·s` followed by the original terminal point; all
consecutive sample distances equal `s`, the first and last graded points
are the original endpoints (`[0,0]` is the `i = 0` sample and `[L,0]` the
appended terminal point), and the final segment has squared length
`(L - (⌊L/s⌋ - 1)·s)²` with `s ≤ L - (⌊L/s⌋ - 1)·s < 2·s`: the final
segment is at least `s` and less than `2·s` long, not at most `s` as
claimed. -/
theorem C1_grading_spacing (L s : ℚ) (hs : 0 < s) (hLs : s ≤ L) :
    grader (xLine L) "line" s
      = Except.ok (GradeOut.line
          ((List.range ((⌊L / s⌋).toNat)).map (fun i : ℕ => [(i : ℚ) * s, 0]) ++ [[L, 0]]))
    ∧ 1 ≤ (⌊L / s⌋).toNat
    ∧ (∀ i : ℕ, distSq [(i : ℚ) * s, 0] [((i : ℚ) + 1) * s, 0] = s ^ 2)
    ∧ distSq [(((⌊L / s⌋).toNat : ℚ) - 1) * s, 0] [L, 0]
        = (L - ((((⌊L / s⌋).toNat : ℚ)) - 1) * s) ^ 2
    ∧ s ≤ L - ((((⌊L / s⌋).toNat : ℚ)) - 1) * s
    ∧ L - ((((⌊L / s⌋).toNat : ℚ)) - 1) * s < 2 * s := by
  obtain ⟨hn1, hnle, hlt⟩ := floor_toNat_facts L s hs hLs
  refine ⟨grader_xLine L s hs hLs, hn1, ?_, ?_, ?_, ?_⟩
  · intro i
    simp [distSq]
    ring
  · simp [distSq]
    ring
  · nlinarith [hnle]
  · nlinarith [hlt]

/-- Claim C1, counterexample: the spec's own concrete instance.  The line
of length 12 graded at spacing 5 yields points at arc lengths
`{0, 5, 12}` — as the claim says — but then the final segment has length
7 > 5, refuting «the final segment has length at most s». -/
theorem C1_counterexample :
    grader (xLine 12) "line" 5 = Except.ok (GradeOut.line [[0, 0], [5, 0], [12, 0]])
    ∧ distSq [5, 0] [12, 0] = 49
    ∧ ¬ distSq [5, 0] [12, 0] ≤ 5 ^ 2 := by
  refine ⟨grader_xLine12, by norm_num [distSq], by norm_num [distSq]⟩

/-- Claim C1, witness: the amended statement applied to the length-12
line at spacing 5. -/
theorem C1_witness :
    grader (xLine 12) "line" 5 = Except.ok (GradeOut.line [[0, 0], [5, 0], [12, 0]])
    ∧ (5 : ℚ) ≤ 12 - (((⌊(12 : ℚ) / 5⌋).toNat : ℚ) - 1) * 5
    ∧ 12 - (((⌊(12 : ℚ) / 5⌋).toNat : ℚ) - 1) * 5 < 2 * 5 := by
  obtain ⟨h1, _, _, _, h5, h6⟩ := C1_grading_spacing 12 5 (by norm_num) (by norm_num)
  refine ⟨?_, h5, h6⟩
  rw [h1, floor_12_5]
  norm_num [List.range_succ]

/-- Claim C7, corrected.  For a line of length `L < s` the sampled
coordinate list is `[line.coords[-1]]` — one point only, not the two
original endpoints — and shapely's LineString constructor raises on it,
so `grader` fails instead of returning a two-point line. -/
theorem C7_short_line (l : SLine) (s : ℚ) (hs : 0 < s) (h0 : 0 ≤ l.length)
    (hL : l.length < s) :
    graderCoords l s = [l.endPt]
    ∧ grader l "line" s
        = Except.error "LineStrings must have at least 2 coordinate tuples" := by
  have hf : (⌊l.length / s⌋).toNat = 0 := floor_toNat_zero l.length s hs h0 hL
  have hc : graderCoords l s = [l.endPt] := by
    rw [graderCoords, hf]
    simp
  refine ⟨hc, ?_⟩
  rw [grader, if_pos rfl, if_pos]
  rw [hc]
  rfl

/-- Claim C7, counterexample: the line of length 1 graded at spacing 2
makes `grader` raise; it does not return the two original endpoints
`[[0,0],[1,0]]`. -/
theorem C7_counterexample :
    grader (xLine 1) "line" 2
        = Except.error "LineStrings must have at least 2 coordinate tuples"
    ∧ grader (xLine 1) "line" 2 ≠ Except.ok (GradeOut.line [[0, 0], [1, 0]]) := by
  have hf : (⌊(1 : ℚ) / 2⌋).toNat = 0 := floor_toNat_zero 1 2 (by norm_num) (by norm_num)
    (by norm_num)
  have hc : graderCoords (xLine 1) 2 = [[1, 0]] := by
    rw [graderCoords]
    show (List.range (⌊(1 : ℚ) / 2⌋).toNat).map _ ++ [[(1 : ℚ), 0]] = [[1, 0]]
    rw [hf]
    simp
  constructor
  · rw [grader, if_pos rfl, if_pos]
    rw [hc]
    rfl
  · rw [grader, if_pos rfl, if_pos]
    · simp
    · rw [hc]
      rfl

/-- Claim C7, witness: the amended statement applied to the line of
length 1 at spacing 2. -/
theorem C7_witness :
    graderCoords (xLine 1) 2 = [[1, 0]]
    ∧ grader (xLine 1) "line" 2
        = Except.error "LineStrings must have at least 2 coordinate tuples" := by
  have h := C7_short_line (xLine 1) 2 (by norm_num) (by norm_num [xLine]) (by norm_num [xLine])
  exact h

/-- Claim C8, confirmed.  The closed LineString `[(0,0),(1,0),(0,0)]`
has arc length `2 = 1 × 2`, an exact multiple of the spacing `s = 2`.
`int(L/s) = 1` produces the single regular sample at arc length 0, which
spatially coincides with the appended terminal point `coords[-1] = (0,0)`:
the graded output is `[[0,0],[0,0]]`, a zero-length final segment between
two duplicate coincident points, and `grader` returns both points without
de-duplicating them.  Such closed lines are squarely in scope: the
pipeline grades polygon boundary rings as lines. -/
theorem C8_zero_length_duplicate :
    loopLine.length = 1 * 2
    ∧ loopLine.interp (0 * 2) = loopLine.endPt
    ∧ grader loopLine "line" 2 = Except.ok (GradeOut.line [[0, 0], [0, 0]])
    ∧ distSq [0, 0] [0, 0] = 0 := by
  have hi : loopLine.interp (0 * 2) = [0, 0] := by
    norm_num [loopLine, min_def, max_def]
  have hc : graderCoords loopLine 2 = [[0, 0], [0, 0]] := by
    rw [graderCoords]
    show (List.range (⌊(2 : ℚ) / 2⌋).toNat).map _ ++ [[0, 0]] = [[0, 0], [0, 0]]
    rw [floor_2_2]
    norm_num [List.range_succ, loopLine, min_def, max_def]
  refine ⟨by norm_num [loopLine], hi, ?_, by norm_num [distSq]⟩
  rw [grader, if_pos rfl, hc]
  norm_num

/-- Claim C9, confirmed.  A non-line `type` argument makes `grader`
report the mismatch and return `None`: no graded line is produced. -/
theorem C9_non_line_input (shapein : SLine) (type : String) (target_length : ℚ)
    (h : type ≠ "line") :
    grader shapein type target_length = Except.ok GradeOut.noneOut := by
  rw [grader, if_neg h]

/-- Claim C9, witness: `grader` called with type `point`. -/
theorem C9_witness : grader (xLine 1) "point" 2 = Except.ok GradeOut.noneOut :=
  C9_non_line_input (xLine 1) "point" 2 (by decide)

/-! ### Claim C4: region seed points (code bug at `buf_union[1]`) -/

/-- Claim C4, code bug.  With the two-component union
`twoCompUnion = [compA, compB]`, the `rep_points` loop emits for *every*
component the representative point of component `1` (`buf_union[1]` in
the source, a fixed index): both emitted rows carry seed `(11, 1)`.
That seed lies inside `compB` but not inside `compA`, so the region
emitted for component 0 violates the claimed containment, even though
each component's own representative point does lie inside it. -/
theorem C4_fixed_index_bug :
    repPointsOf twoCompUnion 125 = [[11, 1, 0, 125], [11, 1, 0, 125]]
    ∧ compA.contains (11, 1) = false
    ∧ compA.contains compA.repPoint = true
    ∧ compB.contains compB.repPoint = true :=
  ⟨rfl, rfl, rfl, rfl⟩

/-! ### Claim C6: degenerate-line filtering -/

/-- Claim C6, confirmed.  After flattening, a simple line of length
`≤ 1.5 × target_length` never reaches the assembly line list, and a
flattened input line of length `> 1.5 × target_length` is always
retained. -/
theorem C6_length_filter (lines : List LineInput) (t : ℚ) (l : SLine) :
    (l.length ≤ 1.5 * t → l ∉ flattenFilter lines t)
    ∧ (l ∈ flattenAll lines → 1.5 * t < l.length → l ∈ flattenFilter lines t) := by
  constructor
  · intro hle hmem
    induction lines with
    | nil => simp [flattenFilter] at hmem
    | cons li rest ih =>
        cases li with
        | single l' =>
            rcases List.mem_append.mp hmem with h1 | h2
            · by_cases hc : l'.length > 1.5 * t
              · rw [if_pos hc] at h1
                have : l = l' := List.mem_singleton.mp h1
                subst this
                exact absurd hc (not_lt.mpr hle)
              · rw [if_neg hc] at h1
                simp at h1
            · exact ih h2
        | multi ls =>
            rcases List.mem_append.mp hmem with h1 | h2
            · have := (List.mem_filter.mp h1).2
              have hgt : 1.5 * t < l.length := of_decide_eq_true this
              exact absurd hgt (not_lt.mpr hle)
            · exact ih h2
  · intro hmem hgt
    induction lines with
    | nil => simp [flattenAll] at hmem
    | cons li rest ih =>
        cases li with
        | single l' =>
            rcases List.mem_cons.mp hmem with h1 | h2
            · subst h1
              apply List.mem_append.mpr
              left
              rw [if_pos hgt]
              exact List.mem_singleton.mpr rfl
            · exact List.mem_append.mpr (Or.inr (ih h2))
        | multi ls =>
            rcases List.mem_append.mp hmem with h1 | h2
            · exact List.mem_append.mpr
                (Or.inl (List.mem_filter.mpr ⟨h1, decide_eq_true hgt⟩))
            · exact List.mem_append.mpr (Or.inr (ih h2))

/-- Claim C6, witness: with `target_length = 5` the line of length 5
(`≤ 7.5`) is dropped and the line of length 12 (`> 7.5`) is kept. -/
theorem C6_witness :
    xLine 5 ∉ flattenFilter cL6 5 ∧ xLine 12 ∈ flattenFilter cL6 5 :=
  ⟨(C6_length_filter cL6 5 (xLine 5)).1 (by norm_num [xLine]),
   (C6_length_filter cL6 5 (xLine 12)).2
     (by simp [cL6, flattenAll]) (by norm_num [xLine])⟩

/-! ### Claims about the assembled PSLG (C2, C3, C5, C10) -/

/-- Claim C2, confirmed.  For every assembled PSLG produced by
`triMeshgen` — any bounding polygon whose boundary block is not a single
vertex (a real polygon ring has at least 3), any lines, any polygons, any
`buffer_dist`, any buffer oracle — every segment's two vertex indices are
within `[0, len(vertices))` and the two indices are distinct. -/
theorem C2_segment_indices (bounding_poly : ShpBoundary) (lines : List LineInput)
    (points : List Coord) (polygons : List PolyInput)
    (target_length element_area buffer_dist : ℚ)
    (bufferOp : List (List Coord) → ℚ → ℚ → BufUnion) (td : TriData)
    (hn : (boundaryCoords bounding_poly).length ≠ 1)
    (h : triMeshgen bounding_poly lines points polygons target_length element_area
          buffer_dist bufferOp = Except.ok td) :
    SegsOK td := by
  rw [triMeshgen.eq_def] at h
  rcases hA : gradeAll target_length (flattenFilter lines target_length) with e | graded
  · rw [hA] at h
    simp at h
  rcases hB : gradeAll target_length (flattenPolys polygons) with e | gradedP
  · rw [hA, hB] at h
    simp at h
  rw [hA, hB] at h
  have h' : triAssemble bounding_poly (graded ++ gradedP)
      (bufferOp (graded ++ gradedP) buffer_dist (target_length / 2)) target_length buffer_dist
      = Except.ok td := h
  by_cases hbd : 0 < buffer_dist
  · obtain ⟨hv, hsg, -⟩ := triAssemble_pos _ _ _ _ _ _ hbd h'
    refine segsOK_of_shape (boundaryCoords bounding_poly).length
      ((boundaryCoords bounding_poly).length + (take2All (graded ++ gradedP)).length)
      ((bufLinesOf (bufferOp (graded ++ gradedP) buffer_dist (target_length / 2))).map
        List.length) td hsg hn ?_ ?_
    · rw [hv]
      simp [List.length_append]
    · rw [hv]
      simp [List.length_append, take2All_length]
      omega
  · rw [triAssemble_nonpos _ _ _ _ _ hbd] at h'
    have htd : addLinesVerts buffer_dist (initTD bounding_poly) (graded ++ gradedP) = td := by
      simpa using h'
    by_cases hbd0 : buffer_dist = 0
    · subst hbd0
      subst htd
      refine segsOK_of_shape (boundaryCoords bounding_poly).length
        (boundaryCoords bounding_poly).length ((graded ++ gradedP).map List.length) _
        ?_ hn ?_ ?_
      · rw [addLinesVerts_segments_zero]
        simp [initTD]
      · rw [addLinesVerts_vertices]
        simp [initTD, List.length_append]
      · rw [addLinesVerts_vertices]
        simp [initTD, List.length_append, take2All_length]
    · subst htd
      refine segsOK_of_shape (boundaryCoords bounding_poly).length
        (boundaryCoords bounding_poly).length [] _ ?_ hn ?_ ?_
      · rw [addLinesVerts_segments_ne _ hbd0]
        simp [initTD, chainsFrom]
      · rw [addLinesVerts_vertices]
        simp [initTD, List.length_append]
      · rw [addLinesVerts_vertices]
        simp [initTD, List.length_append]

/-- Claim C2, witness: the no-buffer run on the square plus `xLine 12`. -/
theorem C2_witness : SegsOK tdA :=
  C2_segment_indices sqBoundary cL1 [] [] 5 5000 0 twoCompOp tdA
    (by rw [bc_sq]; norm_num [sqVerts]) runA

/-- Claim C3, confirmed.  When `buffer_dist > 0` the assembled segment
array is exactly the boundary loop followed by the open chains of the
buffer boundary lines — the graded lines contribute vertices (occupying
the index band from the boundary count `n` up to `n` plus the number of
graded-line vertices) but no segments, and no segment touches that band.
When `buffer_dist = 0` the segment array is exactly the boundary loop
followed by the open chains of the graded lines — no buffer segments
exist. -/
theorem C3_constraint_source (bounding_poly : ShpBoundary) (lines : List LineInput)
    (points : List Coord) (polygons : List PolyInput)
    (target_length element_area buffer_dist : ℚ)
    (bufferOp : List (List Coord) → ℚ → ℚ → BufUnion) (td : TriData)
    (graded gradedP : List (List Coord))
    (hg : gradeAll target_length (flattenFilter lines target_length) = Except.ok graded)
    (hp : gradeAll target_length (flattenPolys polygons) = Except.ok gradedP)
    (h : triMeshgen bounding_poly lines points polygons target_length element_area
          buffer_dist bufferOp = Except.ok td) :
    (0 < buffer_dist →
      td.segments
        = boundarySegs (boundaryCoords bounding_poly).length
          ++ chainsFrom
              ((boundaryCoords bounding_poly).length + (take2All (graded ++ gradedP)).length)
              ((bufLinesOf (bufferOp (graded ++ gradedP) buffer_dist (target_length / 2))).map
                List.length)
      ∧ SegsAvoid td (boundaryCoords bounding_poly).length
          ((boundaryCoords bounding_poly).length + (take2All (graded ++ gradedP)).length))
    ∧ (buffer_dist = 0 →
      td.segments
        = boundarySegs (boundaryCoords bounding_poly).length
          ++ chainsFrom (boundaryCoords bounding_poly).length
              ((graded ++ gradedP).map List.length)) := by
  rw [triMeshgen.eq_def, hg, hp] at h
  have h' : triAssemble bounding_poly (graded ++ gradedP)
      (bufferOp (graded ++ gradedP) buffer_dist (target_length / 2)) target_length buffer_dist
      = Except.ok td := h
  constructor
  · intro hbd
    obtain ⟨hv, hsg, -⟩ := triAssemble_pos _ _ _ _ _ _ hbd h'
    refine ⟨hsg, ?_⟩
    intro s hs
    rw [hsg] at hs
    rcases List.mem_append.mp hs with h1 | h2
    · exact Or.inl ⟨(boundarySegs_mem h1).1, (boundarySegs_mem h1).2.1⟩
    · have hc := chainsFrom_mem h2
      refine Or.inr ⟨hc.1, ?_⟩
      omega
  · intro hbd0
    subst hbd0
    rw [triAssemble_nonpos _ _ _ _ _ (by norm_num)] at h'
    have htd : addLinesVerts 0 (initTD bounding_poly) (graded ++ gradedP) = td := by
      simpa using h'
    subst htd
    rw [addLinesVerts_segments_zero]
    simp [initTD]

/-- Claim C3, witness: the buffered run (`buffer_dist = 1`) yields the
boundary loop plus the buffer-line chains, avoiding the graded-line
vertex band `[4, 7)`; the unbuffered run (`buffer_dist = 0`) yields the
boundary loop plus the graded-line chain. -/
theorem C3_witness :
    (tdB.segments
        = boundarySegs (boundaryCoords sqBoundary).length
          ++ chainsFrom
              ((boundaryCoords sqBoundary).length + (take2All ([lineVerts] ++ [])).length)
              ((bufLinesOf (twoCompOp ([lineVerts] ++ []) 1 (5 / 2))).map List.length)
      ∧ SegsAvoid tdB (boundaryCoords sqBoundary).length
          ((boundaryCoords sqBoundary).length + (take2All ([lineVerts] ++ [])).length))
    ∧ tdA.segments
        = boundarySegs (boundaryCoords sqBoundary).length
          ++ chainsFrom (boundaryCoords sqBoundary).length
              (([lineVerts] ++ []).map List.length) :=
  ⟨(C3_constraint_source sqBoundary cL1 [] [] 5 5000 1 twoCompOp tdB [lineVerts] []
      hg5 hgP runB).1 (by norm_num),
   (C3_constraint_source sqBoundary cL1 [] [] 5 5000 0 twoCompOp tdA [lineVerts] []
      hg5 hgP runA).2 rfl⟩

/-- Claim C5, corrected.  When `buffer_dist > 0`, one representative-point
row per connected component of the buffered union is emitted, and every
row carries the target element area `5 × target_length²`; but the value
attached to the PSLG as `tri_data['regions']` is `np.array(rep_points)[0]`
— only the *first* row, not the full list. -/
theorem C5_regions_attachment (bounding_poly : ShpBoundary) (lines : List LineInput)
    (points : List Coord) (polygons : List PolyInput)
    (target_length element_area buffer_dist : ℚ)
    (bufferOp : List (List Coord) → ℚ → ℚ → BufUnion) (td : TriData)
    (graded gradedP : List (List Coord))
    (hg : gradeAll target_length (flattenFilter lines target_length) = Except.ok graded)
    (hp : gradeAll target_length (flattenPolys polygons) = Except.ok gradedP)
    (h : triMeshgen bounding_poly lines points polygons target_length element_area
          buffer_dist bufferOp = Except.ok td)
    (hbd : 0 < buffer_dist)
    (hBU : ∀ ps, bufferOp (graded ++ gradedP) buffer_dist (target_length / 2)
          = BufUnion.multi ps → 2 ≤ ps.length) :
    td.regions
      = (repPointsOf (bufferOp (graded ++ gradedP) buffer_dist (target_length / 2))
          (5 * target_length ^ 2)).head?
    ∧ (repPointsOf (bufferOp (graded ++ gradedP) buffer_dist (target_length / 2))
          (5 * target_length ^ 2)).length
        = numComponents (bufferOp (graded ++ gradedP) buffer_dist (target_length / 2))
    ∧ ∀ r ∈ repPointsOf (bufferOp (graded ++ gradedP) buffer_dist (target_length / 2))
          (5 * target_length ^ 2),
        r.getD 3 0 = 5 * target_length ^ 2 := by
  rw [triMeshgen.eq_def, hg, hp] at h
  have h' : triAssemble bounding_poly (graded ++ gradedP)
      (bufferOp (graded ++ gradedP) buffer_dist (target_length / 2)) target_length buffer_dist
      = Except.ok td := h
  obtain ⟨-, -, hr⟩ := triAssemble_pos _ _ _ _ _ _ hbd h'
  refine ⟨hr, ?_, ?_⟩
  · rcases bufferOp (graded ++ gradedP) buffer_dist (target_length / 2) with p | ps
    · simp [repPointsOf, numComponents]
    · simp [repPointsOf, numComponents]
  · intro r hrm
    rcases hBU' : bufferOp (graded ++ gradedP) buffer_dist (target_length / 2) with p | ps
    · rw [hBU'] at hrm
      simp [repPointsOf] at hrm
      subst hrm
      simp [repRow]
    · have h2 := hBU ps hBU'
      rw [hBU'] at hrm
      have h1 : ps[1]? = some (ps.get ⟨1, by omega⟩) := by
        rw [List.getElem?_eq_getElem (by omega)]
        simp
      rw [repPointsOf, h1] at hrm
      rcases List.mem_map.mp hrm with ⟨q, -, rfl⟩
      simp [repRow]

/-- Claim C5, counterexample: the buffered run with the two-component
union emits two rows, but the assembled PSLG's region entry is only the
first of them (a single 4-number row), not a list with one entry per
connected component. -/
theorem C5_counterexample :
    triMeshgen sqBoundary cL1 [] [] 5 5000 1 twoCompOp = Except.ok tdB
    ∧ tdB.regions = some [11, 1, 0, 125]
    ∧ repPointsOf twoCompUnion (5 * 5 ^ 2) = [[11, 1, 0, 125], [11, 1, 0, 125]]
    ∧ numComponents twoCompUnion = 2 :=
  ⟨runB, rfl, by norm_num [twoCompUnion, repPointsOf, repRow, compB], rfl⟩

/-- Claim C5, witness: the amended statement applied to the buffered run
with the two-component union. -/
theorem C5_witness :
    tdB.regions
      = (repPointsOf (twoCompOp ([lineVerts] ++ []) 1 (5 / 2)) (5 * 5 ^ 2)).head?
    ∧ (repPointsOf (twoCompOp ([lineVerts] ++ []) 1 (5 / 2)) (5 * 5 ^ 2)).length
        = numComponents (twoCompOp ([lineVerts] ++ []) 1 (5 / 2)) := by
  have h := C5_regions_attachment sqBoundary cL1 [] [] 5 5000 1 twoCompOp tdB [lineVerts] []
    hg5 hgP runB (by norm_num)
    (by
      intro ps hps
      cases hps
      norm_num)
  exact ⟨h.1, h.2.1⟩

/-- Claim C10, corrected.  The vertex array is the boundary coordinate
block — appended *unchanged*, with any z coordinates retained, because
the source never applies `[:, 0:2]` to it — followed by the graded-line
and buffer-line blocks, which are truncated to their first two
coordinates (`z` discarded, every vertex of those blocks has at most two
entries). -/
theorem C10_vertex_coords (bounding_poly : ShpBoundary) (lines : List LineInput)
    (points : List Coord) (polygons : List PolyInput)
    (target_length element_area buffer_dist : ℚ)
    (bufferOp : List (List Coord) → ℚ → ℚ → BufUnion) (td : TriData)
    (graded gradedP : List (List Coord))
    (hg : gradeAll target_length (flattenFilter lines target_length) = Except.ok graded)
    (hp : gradeAll target_length (flattenPolys polygons) = Except.ok gradedP)
    (h : triMeshgen bounding_poly lines points polygons target_length element_area
          buffer_dist bufferOp = Except.ok td) :
    td.vertices
      = boundaryCoords bounding_poly ++ take2All (graded ++ gradedP)
        ++ take2All (if 0 < buffer_dist then
            bufLinesOf (bufferOp (graded ++ gradedP) buffer_dist (target_length / 2)) else [])
    ∧ (∀ p ∈ take2All (graded ++ gradedP), p.length ≤ 2)
    ∧ (∀ p ∈ take2All (if 0 < buffer_dist then
          bufLinesOf (bufferOp (graded ++ gradedP) buffer_dist (target_length / 2)) else []),
        p.length ≤ 2) := by
  refine ⟨?_, fun p hp' => take2All_mem hp', fun p hp' => take2All_mem hp'⟩
  rw [triMeshgen.eq_def, hg, hp] at h
  have h' : triAssemble bounding_poly (graded ++ gradedP)
      (bufferOp (graded ++ gradedP) buffer_dist (target_length / 2)) target_length buffer_dist
      = Except.ok td := h
  by_cases hbd : 0 < buffer_dist
  · obtain ⟨hv, -, -⟩ := triAssemble_pos _ _ _ _ _ _ hbd h'
    rw [if_pos hbd]
    exact hv
  · rw [triAssemble_nonpos _ _ _ _ _ hbd] at h'
    have htd : addLinesVerts buffer_dist (initTD bounding_poly) (graded ++ gradedP) = td := by
      simpa using h'
    subst htd
    rw [if_neg hbd, addLinesVerts_vertices]
    simp [initTD, take2All]

/-- Claim C10, counterexample: a bounding polygon carrying z coordinates
leaves 3-entry vertices (z retained) in the assembled vertex array. -/
theorem C10_counterexample :
    triMeshgen sqBoundary3D [] [] [] 5 5000 0 twoCompOp = Except.ok tdC
    ∧ [0, 0, 7] ∈ tdC.vertices
    ∧ ¬ ([0, 0, 7] : Coord).length ≤ 2 :=
  ⟨runC, by simp [tdC, sqVerts3D], by norm_num⟩

/-- Claim C10, witness: the z-carrying input line `zLine` contributes the
truncated vertices `take2All [zLineVerts]` — its z coordinates are
discarded — while the 2-D boundary block is appended unchanged. -/
theorem C10_witness :
    tdA.vertices
      = boundaryCoords sqBoundary ++ take2All ([zLineVerts] ++ [])
        ++ take2All (if (0 : ℚ) < 0 then
            bufLinesOf (twoCompOp ([zLineVerts] ++ []) 0 (5 / 2)) else [])
    ∧ (∀ p ∈ take2All ([zLineVerts] ++ []), p.length ≤ 2)
    ∧ (∀ p ∈ take2All (if (0 : ℚ) < 0 then
          bufLinesOf (twoCompOp ([zLineVerts] ++ []) 0 (5 / 2)) else []),
        p.length ≤ 2) :=
  C10_vertex_coords sqBoundary cLz [] [] 5 5000 0 twoCompOp tdA [zLineVerts] []
    hgz hgP runE

end TriangleGen
